import Mathlib

/-!
Shallow embedding of `src/src/dispatcher/binder.ts` (the chimee event Binder)
and proofs about it.

The embedding models:
* the pure name/target/stage resolver (`getEventTargetByOldLogic`,
  `getEventStage`, `getEventTargetByEventName`, `getEventInfo`,
  binder.ts lines 44-98);
* the emit-validity guard and the decorated emission entry points
  (`isEventEmitalbe`, `emit`/`emitSync`/`trigger`/`triggerSync`,
  binder.ts lines 115-128, 218-250, 324-356);
* the stateful Binder: native-binding registries, pending queue, Bus
  subscriptions, and the operations `on`, `off`,
  `addEventListenerOnTarget`, `removeEventListenerOnTargetWhenIsUseless`,
  `addPendingEvent`, `applyPendingEvents`, `listenOnMouseMoveEvent`,
  `destroy` (binder.ts lines 130-469);
* the containment (mouseenter/mouseleave) handler body installed by
  `listenOnMouseMoveEvent` (binder.ts lines 260-280).

External collaborators that are part of this repository but not under
`src/` (the Bus, the event-name constant lists, the secondary-event
regular expression, lodash's `camelCase`, the `runnable` decorator and
the DOM helpers) are modelled from the specification; each such
definition carries a doc comment starting with `Modelled from the
spec:`. Native attach/detach effects are recorded as an explicit trace
of `NativeOp` values, and callback closures are identified by the
counter value allocated at their creation.
-/

/-- The closed set of binder targets (binder.ts lines 140-148; `video-dom`
is spelled `videoDom`). -/
inductive BinderTarget where
  | kernel
  | container
  | wrapper
  | video
  | videoDom
  | plugin
  | esFullscreen
deriving DecidableEq, Repr, Fintype

/-- Event stages: `main`, `before`, `after`, and the internal `_` stage
(spelled `underscore`). -/
inductive EventStage where
  | main
  | before
  | after
  | underscore
deriving DecidableEq, Repr, Fintype

/-- Leading-token test on the character lists of two strings; used to model
the anchored regular expressions of the source (kernel-reducible, unlike
`String.startsWith`). -/
def strStarts (s tok : String) : Bool :=
  tok.data.isPrefixOf s.data

/-- Drop the first `n` characters of a string; used to model the
`String.prototype.replace` of an anchored match (kernel-reducible, unlike
`String.drop`). -/
def strDrop (s : String) (n : Nat) : String :=
  String.mk (s.data.drop n)

/-- Modelled from the spec: the "secondary event" pattern from
`const/regExp` (not under `src/`) — a reserved leading token meaning
before-phase, after-phase or internal. Returns the matched leading token,
mirroring `name.match(secondaryEventReg)[0]`. -/
def secondaryEventMatch (name : String) : Option String :=
  if strStarts name "before" then some "before"
  else if strStarts name "after" then some "after"
  else if strStarts name "_" then some "_"
  else none

/-- Modelled from the spec: the cast of the matched token to an
`EventStage` value. -/
def stageOf : String → EventStage
  | "before" => .before
  | "after" => .after
  | _ => .underscore

/-- Modelled from the spec: lodash `camelCase` as it is used on the
stage-stripped remainder ("convert the remainder to the canonical name
casing", spec 4.1 step 2): lower-case the leading character. -/
def camelCase (s : String) : String :=
  match s.toList with
  | [] => ""
  | c :: cs => String.mk (c.toLower :: cs)

/-- Modelled from the spec: the closed membership list of video-level
application events from `const/event` (not under `src/`). None of the
claims name a member of this list; per spec 8, `play` is a media-engine
event, so it is not listed here. -/
def videoEvents : List String := []

/-- Modelled from the spec: the closed membership list of media-engine
events from `const/event` (not under `src/`); per spec 8, `play` is a
media-engine event. -/
def kernelEvents : List String := ["play", "pause", "ended"]

/-- Modelled from the spec: the closed membership list of raw DOM events
that must be heard on the video surface, from `const/event` (not under
`src/`). -/
def domEvents : List String := ["click", "dblclick", "mouseenter", "mouseleave"]

/-- Modelled from the spec: the closed membership list of
fullscreen-transition events from `const/event` (not under `src/`). -/
def esFullscreenEvents : List String := ["fullscreenchange"]

/-- Modelled from the spec: the must-listen raw video DOM events from
`const/event` (not under `src/`) — the raw mouseenter/mouseleave names
used by the containment tracker (spec 4.6). -/
def mustListenVideoDomEvents : List String := ["mouseenter", "mouseleave"]

/-- Modelled from the spec: membership in the must-listen set
(`isMustListenVideoDomEvent` from `const/event`). -/
def isMustListenVideoDomEvent (name : String) : Bool :=
  name ∈ mustListenVideoDomEvents

/-- binder.ts lines 44-61: legacy `c_`/`w_` target-marking names, plus the
special-case mapping of `error` to the kernel target. Returns the
rewritten name and inferred target, or `none` (the source returns
`false`). -/
def getEventTargetByOldLogic (oldName : String) : Option (String × BinderTarget) :=
  if strStarts oldName "c_" then some (strDrop oldName 2, .container)
  else if strStarts oldName "w_" then some (strDrop oldName 2, .wrapper)
  else if oldName = "error" then some ("error", .kernel)
  else none

/-- binder.ts lines 63-70: strip a secondary-event token from the name,
returning the canonicalized remainder and the stage (or `main`). -/
def getEventStage (name : String) : String × EventStage :=
  match secondaryEventMatch name with
  | some tok => (camelCase (strDrop name tok.length), stageOf tok)
  | none => (name, .main)

/-- binder.ts lines 72-78: infer a target from the membership lists, in
priority order, defaulting to `plugin`. -/
def getEventTargetByEventName (name : String) : BinderTarget :=
  if name ∈ videoEvents then .video
  else if name ∈ kernelEvents then .kernel
  else if name ∈ domEvents then .videoDom
  else if name ∈ esFullscreenEvents then .esFullscreen
  else .plugin

/-- The resolved event info (`additionalEventInfo` in binder.ts). -/
structure AdditionalEventInfo where
  name : String
  stage : EventStage
  target : BinderTarget
deriving DecidableEq, Repr

/-- binder.ts lines 80-98: full resolution. The legacy rewrite (step 1)
overwrites both the name and — when it matches — the target, even a
caller-supplied one; membership inference runs only when no target is
set; a caller-supplied stage wins over the stage-token inference. -/
def getEventInfo (name : String) (stage : Option EventStage)
    (target : Option BinderTarget) : AdditionalEventInfo :=
  let step1 : String × Option BinderTarget :=
    match getEventTargetByOldLogic name with
    | some nt => (nt.1, some nt.2)
    | none => (name, target)
  let step2 := getEventStage step1.1
  { name := step2.1
    stage := stage.getD step2.2
    target :=
      match step1.2 with
      | some t => t
      | none => getEventTargetByEventName step2.1 }

/-- binder.ts lines 115-128: the emit-validity guard. A name or id that is
missing or not a string is modelled as `none`; an empty string is falsy in
the source's `!name` / `!id` checks. -/
def isEventEmitalbe (id name : Option String) : Bool :=
  match name with
  | none => false
  | some n =>
    if n = "" then false
    else if (secondaryEventMatch n).isSome then false
    else
      match id with
      | none => false
      | some i => decide (i ≠ "")

/-- Which Bus method the emission entry point delegates to. -/
inductive BusMethod where
  | emit
  | emitSync
  | trigger
  | triggerSync
deriving DecidableEq, Repr

/-- Modelled from the spec: the observable outcome of one decorated
emission entry point. `skipped` is the `runnable` decorator skipping the
method body (no Bus fan-out, undefined return); `skippedFalse` is the same
with the `backup` returning `false`; `fanout m t n` is a delegation to
Bus method `m` on the Bus of target `t` with event name `n`. -/
inductive EmitOutcome where
  | skipped
  | skippedFalse
  | fanout (method : BusMethod) (target : BinderTarget) (rawName : String)
deriving DecidableEq, Repr

/-- binder.ts lines 218-233: `emit`, guarded by `@runnable(isEventEmitalbe)`
(no backup: validation failure skips the body). On success it fans out on
the Bus of the resolved target, passing the caller's raw `name`. The
`none` name under a passing guard cannot happen (the guard requires a
string name). -/
def Binder.emit (id name : Option String) (stage : Option EventStage)
    (target : Option BinderTarget) : EmitOutcome :=
  if isEventEmitalbe id name then
    match name with
    | some n => .fanout .emit (getEventInfo n stage target).target n
    | none => .skipped
  else .skipped

/-- binder.ts lines 235-250: `emitSync`, guarded by
`@runnable(isEventEmitalbe, { backup() { return false; } })`. -/
def Binder.emitSync (id name : Option String) (stage : Option EventStage)
    (target : Option BinderTarget) : EmitOutcome :=
  if isEventEmitalbe id name then
    match name with
    | some n => .fanout .emitSync (getEventInfo n stage target).target n
    | none => .skippedFalse
  else .skippedFalse

/-- binder.ts lines 324-339: `trigger`, same guard as `emit`. -/
def Binder.trigger (id name : Option String) (stage : Option EventStage)
    (target : Option BinderTarget) : EmitOutcome :=
  if isEventEmitalbe id name then
    match name with
    | some n => .fanout .trigger (getEventInfo n stage target).target n
    | none => .skipped
  else .skipped

/-- binder.ts lines 341-356: `triggerSync`, same guard as `emitSync`. -/
def Binder.triggerSync (id name : Option String) (stage : Option EventStage)
    (target : Option BinderTarget) : EmitOutcome :=
  if isEventEmitalbe id name then
    match name with
    | some n => .fanout .triggerSync (getEventInfo n stage target).target n
    | none => .skippedFalse
  else .skippedFalse

/-- C7: Name/target resolution is a deterministic pure function and
satisfies the given examples: `c_play` resolves to name `play`, target
`container`, stage `main`; `beforePlay` resolves to name `play`, stage
`before`, with the target inferred for `play` (`kernel`); `error`
resolves to name `error`, target `kernel`, stage `main`. -/
theorem c7_resolver_examples :
    getEventInfo "c_play" none none =
      ⟨"play", EventStage.main, BinderTarget.container⟩ ∧
    getEventInfo "beforePlay" none none =
      ⟨"play", EventStage.before, BinderTarget.kernel⟩ ∧
    getEventInfo "error" none none =
      ⟨"error", EventStage.main, BinderTarget.kernel⟩ := by
  refine ⟨?_, ?_, ?_⟩ <;> decide

/-- C8: An explicitly caller-supplied stage always becomes the resolved
stage; when the legacy rule does not fire, an explicitly caller-supplied
target always becomes the resolved target (so it wins over membership
inference, which never runs when a target is supplied); and when the
caller supplied no target and the legacy rule fires, the legacy-inferred
target is used. -/
theorem c8_explicit_wins (name : String) (st : EventStage)
    (stage : Option EventStage) (t : BinderTarget) (o : String × BinderTarget) :
    ((getEventInfo name (some st) (some t)).stage = st ∧
     (getEventInfo name (some st) none).stage = st) ∧
    (getEventTargetByOldLogic name = none →
      (getEventInfo name stage (some t)).target = t) ∧
    (getEventTargetByOldLogic name = some o →
      (getEventInfo name stage none).target = o.2) := by
  refine ⟨⟨?_, ?_⟩, ?_, ?_⟩
  · cases h : getEventTargetByOldLogic name <;> simp [getEventInfo, h]
  · cases h : getEventTargetByOldLogic name <;> simp [getEventInfo, h]
  · intro h; simp [getEventInfo, h]
  · intro h; simp [getEventInfo, h]

/-- Witness for C8 at concrete inputs. -/
theorem c8_explicit_wins_witness :
    getEventTargetByOldLogic "click" = none ∧
    getEventTargetByOldLogic "c_play" = some ("play", BinderTarget.container) ∧
    (getEventInfo "click" (some EventStage.before) (some BinderTarget.container)).stage
      = EventStage.before ∧
    (getEventInfo "click" none (some BinderTarget.container)).target
      = BinderTarget.container ∧
    (getEventInfo "c_play" none none).target = BinderTarget.container := by
  have h1 := c8_explicit_wins "click" EventStage.before none BinderTarget.container
    ("play", BinderTarget.container)
  have h2 := c8_explicit_wins "c_play" EventStage.before none BinderTarget.container
    ("play", BinderTarget.container)
  exact ⟨by decide, by decide, (h1.1).1,
    h1.2.1 (by decide), h2.2.2 (by decide)⟩

/-- C9: when the name is missing (or not a string) or stage-prefixed, or
the id is missing (or not a string), every emission entry point performs
no Bus fan-out: `emit` and `trigger` degrade to a skipped no-op, and
`emitSync` and `triggerSync` return `false`. -/
theorem c9_invalid_emission_noop (id name : Option String)
    (stage : Option EventStage) (target : Option BinderTarget)
    (h : name = none ∨ (∃ n, name = some n ∧ (secondaryEventMatch n).isSome) ∨ id = none) :
    Binder.emit id name stage target = .skipped ∧
    Binder.emitSync id name stage target = .skippedFalse ∧
    Binder.trigger id name stage target = .skipped ∧
    Binder.triggerSync id name stage target = .skippedFalse := by
  have hv : isEventEmitalbe id name = false := by
    rcases h with h | ⟨n, rfl, hn⟩ | h
    · subst h; rfl
    · simp [isEventEmitalbe, hn]
    · subst h; cases name with
      | none => rfl
      | some n => simp [isEventEmitalbe]
  refine ⟨?_, ?_, ?_, ?_⟩ <;>
    simp [Binder.emit, Binder.emitSync, Binder.trigger, Binder.triggerSync, hv]

/-- Witness for C9: a stage-prefixed name is rejected by every entry
point. -/
theorem c9_invalid_emission_noop_witness :
    Binder.emit (some "vm") (some "beforePlay") none none = .skipped ∧
    Binder.emitSync (some "vm") (some "beforePlay") none none = .skippedFalse ∧
    Binder.trigger (some "vm") (some "beforePlay") none none = .skipped ∧
    Binder.triggerSync (some "vm") (some "beforePlay") none none = .skippedFalse :=
  c9_invalid_emission_noop (some "vm") (some "beforePlay") none none
    (Or.inr (Or.inl ⟨"beforePlay", rfl, by decide⟩))

/-- C10: a valid emission fans out on the Bus of the fully resolved
target, but the event name handed to that Bus is the caller's original
raw name, not the normalized one. -/
theorem c10_raw_name_fanout (id n : String) (stage : Option EventStage)
    (target : Option BinderTarget)
    (h : isEventEmitalbe (some id) (some n) = true) :
    Binder.emit (some id) (some n) stage target =
      .fanout .emit (getEventInfo n stage target).target n ∧
    Binder.emitSync (some id) (some n) stage target =
      .fanout .emitSync (getEventInfo n stage target).target n ∧
    Binder.trigger (some id) (some n) stage target =
      .fanout .trigger (getEventInfo n stage target).target n ∧
    Binder.triggerSync (some id) (some n) stage target =
      .fanout .triggerSync (getEventInfo n stage target).target n := by
  refine ⟨?_, ?_, ?_, ?_⟩ <;>
    simp [Binder.emit, Binder.emitSync, Binder.trigger, Binder.triggerSync, h]

/-- Witness for C10: emitting `c_play` fans out on the `container` Bus
under the raw name `c_play`, even though the normalized name is `play`. -/
theorem c10_raw_name_fanout_witness :
    Binder.emit (some "p") (some "c_play") none none =
      .fanout .emit BinderTarget.container "c_play" ∧
    (getEventInfo "c_play" none none).name = "play" := by
  have h := c10_raw_name_fanout "p" "c_play" none none (by decide)
  exact ⟨by rw [h.1]; decide, by decide⟩

/-- Physical attachment points: the media engine, the DOM nodes resolved by
`getTargetDom`, the overlay ("penetrate") nodes, and other nodes passed in
from outside (identified by number). -/
inductive PhysNode where
  | kernelSource
  | containerDom
  | wrapperDom
  | videoElement
  | extendedNode (i : Nat)
  | otherNode (i : Nat)
deriving DecidableEq, Repr

/-- A native attach/detach effect. `attach node name cb` is
`addEvent(node, name, fn)` (or `kernel.on(name, fn)` when `node` is
`kernelSource`); `detach` is the corresponding removal. Callback closures
are identified by the counter value `cb` allocated at their creation. -/
inductive NativeOp where
  | attach (node : PhysNode) (name : String) (cb : Nat)
  | detach (node : PhysNode) (name : String) (cb : Nat)
deriving DecidableEq, Repr

/-- Modelled from the spec: one logical subscription held by a Bus
(dispatcher/bus is not under `src/`). The fields are the arguments the
Binder forwards to `bus.on`/`bus.off`; subscriber handlers are identified
by number. -/
structure BusSub where
  id : String
  name : String
  fnId : Nat
  stage : EventStage
deriving DecidableEq, Repr

/-- The Binder's mutable state (binder.ts lines 130-159), together with the
pieces of the host dispatcher it reads: whether `dispatcher.kernel` exists,
and the current `dispatcher.dom.videoExtendedNodes` (overlay node ids).
`nextCb` is the allocator for native-callback identities. -/
structure BinderState where
  bindedEventInfo : BinderTarget → List (String × Nat)
  bindedEventNames : BinderTarget → List String
  pendingEventsInfo : BinderTarget → List (String × String)
  busSubs : BinderTarget → List BusSub
  kernelPresent : Bool
  videoExtendedNodes : List Nat
  nextCb : Nat

/-- binder.ts lines 138-159: the constructor leaves every per-target list
empty. -/
def binderInit (kernelPresent : Bool) (videoExtendedNodes : List Nat) : BinderState :=
  { bindedEventInfo := fun _ => []
    bindedEventNames := fun _ => []
    pendingEventsInfo := fun _ => []
    busSubs := fun _ => []
    kernelPresent := kernelPresent
    videoExtendedNodes := videoExtendedNodes
    nextCb := 0 }

/-- binder.ts lines 397-409: resolve the DOM node for a target. -/
def getTargetDom : BinderTarget → PhysNode
  | .container => .containerDom
  | .wrapper => .wrapperDom
  | _ => .videoElement

/-- The physical source a target's single native listener lives on: the
media engine for `kernel`, otherwise the node from `getTargetDom`. -/
def primaryNode : BinderTarget → PhysNode
  | .kernel => .kernelSource
  | t => getTargetDom t

/-- binder.ts lines 411-419: which (target, name) pairs get a native
binding at all. -/
def isEventNeedToBeHandled (target : BinderTarget) (name : String) : Bool :=
  target ≠ .plugin && target ≠ .esFullscreen &&
    (!(isMustListenVideoDomEvent name) || target ≠ .video)

/-- Record a new native binding: push the name and the (name, callback)
pair, and advance the callback allocator (binder.ts lines 393-394 together
with the closure creation). -/
def pushBinding (s : BinderState) (target : BinderTarget) (name : String)
    (cb : Nat) : BinderState :=
  { s with
    bindedEventNames := fun t =>
      if t = target then s.bindedEventNames t ++ [name] else s.bindedEventNames t
    bindedEventInfo := fun t =>
      if t = target then s.bindedEventInfo t ++ [(name, cb)] else s.bindedEventInfo t
    nextCb := s.nextCb + 1 }

/-- binder.ts lines 161-163: `addPendingEvent`. -/
def addPendingEvent (s : BinderState) (target : BinderTarget)
    (name id : String) : BinderState :=
  { s with
    pendingEventsInfo := fun t =>
      if t = target then s.pendingEventsInfo t ++ [(name, id)]
      else s.pendingEventsInfo t }

/-- Modelled from the spec: `bus.on` appends a subscription to the target's
Bus. -/
def busOnState (s : BinderState) (target : BinderTarget) (sub : BusSub) :
    BinderState :=
  { s with
    busSubs := fun t =>
      if t = target then s.busSubs t ++ [sub] else s.busSubs t }

/-- Modelled from the spec: `bus.off` removes the matching subscription
from the target's Bus. -/
def busOffState (s : BinderState) (target : BinderTarget) (sub : BusSub) :
    BinderState :=
  { s with
    busSubs := fun t =>
      if t = target then (s.busSubs t).eraseP (fun x => x == sub)
      else s.busSubs t }

/-- Modelled from the spec: `bus.hasEvents()` is true iff any logical
subscriber remains for the Bus's target, any name/id/stage (spec 6). -/
def busHasEvents (subs : List BusSub) : Bool :=
  !subs.isEmpty

/-- The native attaches performed for one new binding of `(target, name)`
with callback `cb` (binder.ts lines 375-392): the media engine for
`kernel`; the target's DOM node for `container`/`wrapper`/`video`; for
`video-dom`, every current overlay node and then the video element. The
guard in `addEventListenerOnTarget` keeps `plugin`/`esFullscreen` out of
this function. -/
def attachOps (s : BinderState) (target : BinderTarget) (name : String)
    (cb : Nat) : List NativeOp :=
  match target with
  | .kernel => [.attach .kernelSource name cb]
  | .container => [.attach .containerDom name cb]
  | .wrapper => [.attach .wrapperDom name cb]
  | .video => [.attach .videoElement name cb]
  | .videoDom =>
      (s.videoExtendedNodes.map fun i => NativeOp.attach (.extendedNode i) name cb)
        ++ [.attach .videoElement name cb]
  | _ => []

/-- binder.ts lines 360-395: `addEventListenerOnTarget`. No-op when the
event needs no handling or is already bound; defers to the pending queue
when the kernel target's engine is absent; otherwise creates one callback,
attaches it, and records the binding. -/
def addEventListenerOnTarget (s : BinderState) (name : String)
    (target : BinderTarget) (id : String) : BinderState × List NativeOp :=
  if isEventNeedToBeHandled target name = false then (s, [])
  else if name ∈ s.bindedEventNames target then (s, [])
  else if target = .kernel ∧ s.kernelPresent = false then
    (addPendingEvent s target name id, [])
  else
    (pushBinding s target name s.nextCb, attachOps s target name s.nextCb)

/-- The raw argument record of `on`/`off`/`once` (`rawEventInfo` in
binder.ts lines 17-23); handlers are identified by number and always
callable (`prettifyEventParameter`'s function check never fires in the
modelled runs). -/
structure RawEventInfoM where
  id : String
  name : String
  stage : Option EventStage
  target : Option BinderTarget
  fnId : Nat
deriving DecidableEq, Repr

/-- The resolved info of a raw call, as computed by
`prettifyEventParameter` (binder.ts lines 100-113). -/
def resolvedOf (info : RawEventInfoM) : AdditionalEventInfo :=
  getEventInfo info.name info.stage info.target

/-- The Bus subscription record a raw call forwards to `bus.on`/`bus.off`. -/
def busSubOf (info : RawEventInfoM) : BusSub :=
  ⟨info.id, (resolvedOf info).name, info.fnId, (resolvedOf info).stage⟩

/-- binder.ts lines 309-317: `on` resolves, ensures the native attachment,
then subscribes on the resolved target's Bus. -/
def Binder.on (s : BinderState) (info : RawEventInfoM) :
    BinderState × List NativeOp :=
  let w := resolvedOf info
  let r := addEventListenerOnTarget s w.name w.target info.id
  (busOnState r.1 w.target (busSubOf info), r.2)

/-- The native detaches for releasing the binding of `(target, name)` with
callback `cb` (binder.ts lines 452-465): `kernel.off` for the kernel;
otherwise the target's DOM node, plus every overlay node for `video-dom`. -/
def detachOps (s : BinderState) (target : BinderTarget) (name : String)
    (cb : Nat) : List NativeOp :=
  match target with
  | .kernel => [.detach .kernelSource name cb]
  | .videoDom =>
      [.detach .videoElement name cb]
        ++ (s.videoExtendedNodes.map fun i => NativeOp.detach (.extendedNode i) name cb)
  | t => [.detach (getTargetDom t) name cb]

/-- binder.ts lines 425-469: `removeEventListenerOnTargetWhenIsUseless`.
No-op when the event needs no handling, is not bound, or the target's Bus
still has any subscriber (`hasEvents()` is target-wide, not per-name);
otherwise detach the recorded callback and splice both registry lists. -/
def removeEventListenerOnTargetWhenIsUseless (s : BinderState) (name : String)
    (target : BinderTarget) : BinderState × List NativeOp :=
  if isEventNeedToBeHandled target name = false then (s, [])
  else if name ∉ s.bindedEventNames target then (s, [])
  else if busHasEvents (s.busSubs target) then (s, [])
  else
    match (s.bindedEventInfo target).find? (fun p => p.1 == name) with
    | none => (s, [])
    | some pair =>
        ({ s with
           bindedEventInfo := fun t =>
             if t = target then (s.bindedEventInfo t).eraseP (fun p => p.1 == name)
             else s.bindedEventInfo t
           bindedEventNames := fun t =>
             if t = target then (s.bindedEventNames t).erase name
             else s.bindedEventNames t },
         detachOps s target name pair.2)

/-- binder.ts lines 302-307: `off` resolves, unsubscribes from the resolved
target's Bus, then releases the native binding if it became useless. -/
def Binder.off (s : BinderState) (info : RawEventInfoM) :
    BinderState × List NativeOp :=
  let w := resolvedOf info
  let s1 := busOffState s w.target (busSubOf info)
  removeEventListenerOnTargetWhenIsUseless s1 w.name w.target

/-- The replay loop of `applyPendingEvents` (binder.ts lines 168-171): the
source pops entries off the END of the drained copy, so this loop receives
the drained list already reversed and feeds each entry to
`addEventListenerOnTarget`, concatenating the native-effect traces. -/
def applyPendingLoop (target : BinderTarget) :
    BinderState → List (String × String) → BinderState × List NativeOp
  | s, [] => (s, [])
  | s, (name, id) :: rest =>
      let r := addEventListenerOnTarget s name target id
      let r2 := applyPendingLoop target r.1 rest
      (r2.1, r.2 ++ r2.2)

/-- binder.ts lines 165-172: `applyPendingEvents` splices the whole pending
list out (so the state's pending list is empty before any replay), then
pops entries off the end of the copy — replaying them in reverse enqueue
order. -/
def applyPendingEvents (s : BinderState) (target : BinderTarget) :
    BinderState × List NativeOp :=
  let pendingEventsCopy := s.pendingEventsInfo target
  let s0 : BinderState :=
    { s with
      pendingEventsInfo := fun t =>
        if t = target then [] else s.pendingEventsInfo t }
  applyPendingLoop target s0 pendingEventsCopy.reverse

/-- The loop body of `listenOnMouseMoveEvent` (binder.ts lines 259-290):
for each must-listen name a fresh closure is created and attached to the
node UNCONDITIONALLY; only the recording into `bindedEventNames` /
`bindedEventInfo` is guarded by the already-bound check. -/
def listenOnMouseMoveLoop (node : PhysNode) :
    BinderState → List String → BinderState × List NativeOp
  | s, [] => (s, [])
  | s, name :: rest =>
      let cb := s.nextCb
      let s1 :=
        if name ∈ s.bindedEventNames .videoDom then
          { s with nextCb := s.nextCb + 1 }
        else pushBinding s .videoDom name cb
      let r := listenOnMouseMoveLoop node s1 rest
      (r.1, NativeOp.attach node name cb :: r.2)

/-- binder.ts lines 255-291: `listenOnMouseMoveEvent` over the must-listen
names; the target is `video-dom` and the closures' id is `_vm`. -/
def listenOnMouseMoveEvent (s : BinderState) (node : PhysNode) :
    BinderState × List NativeOp :=
  listenOnMouseMoveLoop node s mustListenVideoDomEvents

/-- One iteration of the destroy loop (binder.ts lines 198-215): for the
kernel target, `kernel.off` every recorded pair; otherwise detach every
recorded pair from `getTargetDom target`, plus every overlay node when the
target is `video-dom`. The source then clears
`this.bindedEventInfo.kernel` and `this.bindedEventNames.kernel` — the
KERNEL entries, on every iteration of the loop over all targets
(binder.ts lines 213-214). -/
def destroyStep (s : BinderState) (target : BinderTarget) :
    BinderState × List NativeOp :=
  let ops :=
    if target = .kernel then
      (s.bindedEventInfo .kernel).map fun p => NativeOp.detach .kernelSource p.1 p.2
    else
      (s.bindedEventInfo target).flatMap fun p =>
        NativeOp.detach (getTargetDom target) p.1 p.2 ::
          (if target = .videoDom then
            s.videoExtendedNodes.map fun i => NativeOp.detach (.extendedNode i) p.1 p.2
          else [])
  ({ s with
     bindedEventInfo := fun t => if t = .kernel then [] else s.bindedEventInfo t
     bindedEventNames := fun t => if t = .kernel then [] else s.bindedEventNames t },
   ops)

/-- The `kinds` list fixed in the constructor (binder.ts lines 140-148). -/
def kinds : List BinderTarget :=
  [.kernel, .container, .wrapper, .video, .videoDom, .plugin, .esFullscreen]

/-- The destroy loop over a list of targets. -/
def destroyLoop : BinderState → List BinderTarget → BinderState × List NativeOp
  | s, [] => (s, [])
  | s, t :: rest =>
      let r := destroyStep s t
      let r2 := destroyLoop r.1 rest
      (r2.1, r.2 ++ r2.2)

/-- binder.ts lines 197-216: `destroy` iterates the destroy step over all
`kinds`. -/
def Binder.destroy (s : BinderState) : BinderState × List NativeOp :=
  destroyLoop s kinds

/-- The raw mouse event seen by the containment handler: `toElement`,
`relatedTarget`, `currentTarget` and `type`, with nodes identified by
number and absent fields as `none`. -/
structure MouseEventArg where
  toElement : Option Nat
  relatedTarget : Option Nat
  currentTarget : Nat
  type : String
deriving DecidableEq, Repr

/-- `const to = toElement || relatedTarget` (binder.ts line 262). -/
def resolveToNode (ev : MouseEventArg) : Option Nat :=
  ev.toElement.orElse fun _ => ev.relatedTarget

/-- The containment predicate applied to a possibly-absent node
(`dom.isNodeInsideVideo` on `undefined` is false: an absent node is not
inside the video region). -/
def insideOpt (inside : Nat → Bool) : Option Nat → Bool
  | some n => inside n
  | none => false

/-- binder.ts lines 260-280: the body of the closure installed by
`listenOnMouseMoveEvent` for the must-listen name `name`. `inside` is the
host's `dom.isNodeInsideVideo` predicate and `mouseInVideo` the host's
containment flag; the result is the new flag value and the list of
synthetic `triggerSync` emissions (each carrying the closure's own
`name`). -/
def mustListenHandler (inside : Nat → Bool) (mouseInVideo : Bool)
    (name : String) (ev : MouseEventArg) : Bool × List String :=
  if mouseInVideo && ev.type == "mouseleave"
      && !(insideOpt inside (resolveToNode ev)) then
    (false, [name])
  else if !mouseInVideo && ev.type == "mouseenter"
      && inside ev.currentTarget then
    (true, [name])
  else
    (mouseInVideo, [])

/-- Count the attaches of `name` on `node` in a trace. -/
def countNamedAttachOn (node : PhysNode) (name : String)
    (ops : List NativeOp) : Nat :=
  ops.countP fun op =>
    match op with
    | .attach n m _ => n == node && m == name
    | _ => false

/-- Count the detaches of `name` on `node` in a trace. -/
def countNamedDetachOn (node : PhysNode) (name : String)
    (ops : List NativeOp) : Nat :=
  ops.countP fun op =>
    match op with
    | .detach n m _ => n == node && m == name
    | _ => false

/-- The names of the attaches on `node` in a trace, in order. -/
def attachNamesOn (node : PhysNode) (ops : List NativeOp) : List String :=
  ops.filterMap fun op =>
    match op with
    | .attach n m _ => if n == node then some m else none
    | _ => none

/-- The registry invariant of the claim: per target, `bindedEventNames`
equals the name components of `bindedEventInfo` in order, and is
duplicate-free. -/
def bindedInv (s : BinderState) : Prop :=
  ∀ t, s.bindedEventNames t = (s.bindedEventInfo t).map Prod.fst ∧
    (s.bindedEventNames t).Nodup

instance (s : BinderState) : Decidable (bindedInv s) := by
  unfold bindedInv; infer_instance

/-- Fold `Binder.on` over a list of raw registrations, concatenating the
native-effect traces. -/
def onSeq : BinderState → List RawEventInfoM → BinderState × List NativeOp
  | s, [] => (s, [])
  | s, info :: rest =>
      let r := Binder.on s info
      let r2 := onSeq r.1 rest
      (r2.1, r.2 ++ r2.2)

lemma addEventListenerOnTarget_bound (s : BinderState) (name : String)
    (target : BinderTarget) (id : String)
    (h : name ∈ s.bindedEventNames target) :
    addEventListenerOnTarget s name target id = (s, []) := by
  unfold addEventListenerOnTarget
  simp [h]

lemma pushBinding_names_self (s : BinderState) (target : BinderTarget)
    (name : String) (cb : Nat) :
    (pushBinding s target name cb).bindedEventNames target =
      s.bindedEventNames target ++ [name] := by
  simp [pushBinding]

lemma pushBinding_names_ne (s : BinderState) (target t : BinderTarget)
    (name : String) (cb : Nat) (ht : t ≠ target) :
    (pushBinding s target name cb).bindedEventNames t = s.bindedEventNames t := by
  simp [pushBinding, ht]

lemma pushBinding_info_self (s : BinderState) (target : BinderTarget)
    (name : String) (cb : Nat) :
    (pushBinding s target name cb).bindedEventInfo target =
      s.bindedEventInfo target ++ [(name, cb)] := by
  simp [pushBinding]

lemma pushBinding_info_ne (s : BinderState) (target t : BinderTarget)
    (name : String) (cb : Nat) (ht : t ≠ target) :
    (pushBinding s target name cb).bindedEventInfo t = s.bindedEventInfo t := by
  simp [pushBinding, ht]

lemma addEventListenerOnTarget_attach (s : BinderState) (name : String)
    (target : BinderTarget) (id : String)
    (hneed : isEventNeedToBeHandled target name = true)
    (hnb : name ∉ s.bindedEventNames target)
    (hk : ¬(target = .kernel ∧ s.kernelPresent = false)) :
    addEventListenerOnTarget s name target id =
      (pushBinding s target name s.nextCb, attachOps s target name s.nextCb) := by
  unfold addEventListenerOnTarget
  rw [if_neg (by simp [hneed]), if_neg hnb, if_neg hk]

lemma bindedInv_pushBinding (s : BinderState) (target : BinderTarget)
    (name : String) (cb : Nat) (hinv : bindedInv s)
    (hnb : name ∉ s.bindedEventNames target) :
    bindedInv (pushBinding s target name cb) := by
  intro t
  by_cases ht : t = target
  · rw [ht, pushBinding_names_self, pushBinding_info_self]
    refine ⟨?_, ?_⟩
    · rw [List.map_append, ← (hinv target).1]; rfl
    · simp [List.nodup_append, (hinv target).2, hnb]
  · rw [pushBinding_names_ne s target t name cb ht,
      pushBinding_info_ne s target t name cb ht]
    exact hinv t

lemma bindedInv_addEventListenerOnTarget (s : BinderState) (name : String)
    (target : BinderTarget) (id : String) (hinv : bindedInv s) :
    bindedInv (addEventListenerOnTarget s name target id).1 := by
  unfold addEventListenerOnTarget
  split
  · exact hinv
  · split
    · exact hinv
    · split
      · exact hinv
      · next hnb _ => exact bindedInv_pushBinding s target name s.nextCb hinv hnb

lemma bindedInv_binderOn (s : BinderState) (info : RawEventInfoM)
    (hinv : bindedInv s) : bindedInv (Binder.on s info).1 :=
  bindedInv_addEventListenerOnTarget s (resolvedOf info).name
    (resolvedOf info).target info.id hinv

lemma bindedInv_onSeq (s : BinderState) (infos : List RawEventInfoM)
    (hinv : bindedInv s) : bindedInv (onSeq s infos).1 := by
  induction infos generalizing s with
  | nil => exact hinv
  | cons info rest ih => exact ih _ (bindedInv_binderOn s info hinv)

lemma countNamedAttachOn_attachOps (s : BinderState) (target : BinderTarget)
    (name : String) (cb : Nat)
    (hneed : isEventNeedToBeHandled target name = true) :
    countNamedAttachOn (primaryNode target) name (attachOps s target name cb) = 1 := by
  cases target <;>
    simp_all [attachOps, primaryNode, getTargetDom, countNamedAttachOn,
      isEventNeedToBeHandled, List.countP_append, List.countP_map, Function.comp_def]

lemma countNamedDetachOn_detachOps (s : BinderState) (target : BinderTarget)
    (name : String) (cb : Nat) :
    countNamedDetachOn (primaryNode target) name (detachOps s target name cb) = 1 := by
  cases target <;>
    simp [detachOps, primaryNode, getTargetDom, countNamedDetachOn,
      List.countP_append, List.countP_map, Function.comp_def]

lemma attachNamesOn_attachOps (s : BinderState) (target : BinderTarget)
    (name : String) (cb : Nat)
    (hneed : isEventNeedToBeHandled target name = true) :
    attachNamesOn (primaryNode target) (attachOps s target name cb) = [name] := by
  cases target <;>
    simp_all [attachOps, primaryNode, getTargetDom, attachNamesOn,
      isEventNeedToBeHandled, List.filterMap_append, List.filterMap_map,
      Function.comp_def]

/-- C6: the containment state machine of the must-listen handler: from
`insideVideo = false`, a `mouseenter` whose node is inside the video
region flips the flag to `true` and fires exactly one synthetic
`triggerSync`; from `insideVideo = true`, a `mouseleave` whose destination
node is outside the region flips the flag to `false` and fires exactly one
synthetic `triggerSync`; a `mouseleave` whose destination is still inside
the region leaves the flag `true` and fires nothing; and every other
combination leaves the flag and fires nothing. -/
theorem c6_containment_state_machine (inside : Nat → Bool)
    (mouseInVideo : Bool) (name : String) (ev : MouseEventArg) :
    (mouseInVideo = false → ev.type = "mouseenter" →
      inside ev.currentTarget = true →
      mustListenHandler inside mouseInVideo name ev = (true, [name])) ∧
    (mouseInVideo = true → ev.type = "mouseleave" →
      insideOpt inside (resolveToNode ev) = false →
      mustListenHandler inside mouseInVideo name ev = (false, [name])) ∧
    (mouseInVideo = true → ev.type = "mouseleave" →
      insideOpt inside (resolveToNode ev) = true →
      mustListenHandler inside mouseInVideo name ev = (true, [])) ∧
    ((mouseInVideo && ev.type == "mouseleave"
        && !(insideOpt inside (resolveToNode ev))) = false →
     (!mouseInVideo && ev.type == "mouseenter"
        && inside ev.currentTarget) = false →
      mustListenHandler inside mouseInVideo name ev = (mouseInVideo, [])) := by
  refine ⟨?_, ?_, ?_, ?_⟩
  · intro h1 h2 h3; simp [mustListenHandler, h1, h2, h3]
  · intro h1 h2 h3; simp [mustListenHandler, h1, h2, h3]
  · intro h1 h2 h3; simp [mustListenHandler, h1, h2, h3]
  · intro h1 h2; simp only [mustListenHandler, h1, h2]; rfl

/-- Witness for C6: with node 0 the only node inside the region, an enter
on node 0 from outside fires one synthetic enter; a leave towards node 5
fires one synthetic leave; a leave towards node 0 is a no-op; an enter
while already inside is a no-op. -/
theorem c6_containment_state_machine_witness :
    mustListenHandler (fun n => n == 0) false "mouseenter"
      ⟨none, none, 0, "mouseenter"⟩ = (true, ["mouseenter"]) ∧
    mustListenHandler (fun n => n == 0) true "mouseleave"
      ⟨some 5, none, 0, "mouseleave"⟩ = (false, ["mouseleave"]) ∧
    mustListenHandler (fun n => n == 0) true "mouseleave"
      ⟨some 0, none, 0, "mouseleave"⟩ = (true, []) ∧
    mustListenHandler (fun n => n == 0) true "mouseenter"
      ⟨none, none, 0, "mouseenter"⟩ = (true, []) := by
  have h1 := c6_containment_state_machine (fun n => n == 0) false "mouseenter"
    ⟨none, none, 0, "mouseenter"⟩
  have h2 := c6_containment_state_machine (fun n => n == 0) true "mouseleave"
    ⟨some 5, none, 0, "mouseleave"⟩
  have h3 := c6_containment_state_machine (fun n => n == 0) true "mouseleave"
    ⟨some 0, none, 0, "mouseleave"⟩
  have h4 := c6_containment_state_machine (fun n => n == 0) true "mouseenter"
    ⟨none, none, 0, "mouseenter"⟩
  exact ⟨h1.1 rfl rfl (by decide), h2.2.1 rfl rfl (by decide),
    h3.2.2.1 rfl rfl (by decide), h4.2.2.2 (by decide) (by decide)⟩

lemma onSeq_bound (n : String) (t : BinderTarget) :
    ∀ (infos : List RawEventInfoM) (s : BinderState),
      (∀ info ∈ infos, (resolvedOf info).name = n ∧ (resolvedOf info).target = t) →
      n ∈ s.bindedEventNames t →
      (onSeq s infos).2 = []
  | [], _, _, _ => rfl
  | info :: rest, s, hres, hmem => by
      obtain ⟨hn, ht⟩ := hres info (List.mem_cons_self _ _)
      have hb : addEventListenerOnTarget s (resolvedOf info).name
          (resolvedOf info).target info.id = (s, []) := by
        rw [hn, ht]; exact addEventListenerOnTarget_bound s n t info.id hmem
      have hOn : Binder.on s info =
          (busOnState s (resolvedOf info).target (busSubOf info), []) := by
        simp only [Binder.on, hb]
      simp only [onSeq, hOn, List.nil_append]
      exact onSeq_bound n t rest (busOnState s (resolvedOf info).target (busSubOf info))
        (fun i hi => hres i (List.mem_cons_of_mem _ hi)) hmem

/-- C1: for every sequence of `on` calls resolving to the same
`(target, name)` (with any ids), if the pair needs native handling, the
target's source is available, the name is not yet bound, and the registry
invariant holds, then exactly one native attach on the target's own source
occurs over the whole sequence; and after every prefix of the sequence,
`bindedEventNames` and the name components of `bindedEventInfo` of every
target are the same duplicate-free list. -/
theorem c1_native_attach_unique (s0 : BinderState) (infos : List RawEventInfoM)
    (n : String) (t : BinderTarget)
    (hres : ∀ info ∈ infos, (resolvedOf info).name = n ∧ (resolvedOf info).target = t)
    (hneed : isEventNeedToBeHandled t n = true)
    (hk : t = .kernel → s0.kernelPresent = true)
    (hinv : bindedInv s0)
    (hnb : n ∉ s0.bindedEventNames t)
    (hne : infos ≠ []) :
    countNamedAttachOn (primaryNode t) n (onSeq s0 infos).2 = 1 ∧
    ∀ k, bindedInv (onSeq s0 (infos.take k)).1 := by
  constructor
  · match infos, hne with
    | info :: rest, _ =>
      obtain ⟨hn, ht⟩ := hres info (List.mem_cons_self _ _)
      have hkk : ¬(t = .kernel ∧ s0.kernelPresent = false) := by
        rintro ⟨h1, h2⟩
        rw [hk h1] at h2
        exact Bool.noConfusion h2
      have ha : addEventListenerOnTarget s0 (resolvedOf info).name
          (resolvedOf info).target info.id =
          (pushBinding s0 t n s0.nextCb, attachOps s0 t n s0.nextCb) := by
        rw [hn, ht]
        exact addEventListenerOnTarget_attach s0 n t info.id hneed hnb hkk
      have hOn : Binder.on s0 info =
          (busOnState (pushBinding s0 t n s0.nextCb) (resolvedOf info).target
              (busSubOf info),
            attachOps s0 t n s0.nextCb) := by
        simp only [Binder.on, ha]
      have hmem1 : n ∈ (busOnState (pushBinding s0 t n s0.nextCb)
          (resolvedOf info).target (busSubOf info)).bindedEventNames t := by
        have : (busOnState (pushBinding s0 t n s0.nextCb)
            (resolvedOf info).target (busSubOf info)).bindedEventNames t =
            (pushBinding s0 t n s0.nextCb).bindedEventNames t := rfl
        rw [this, pushBinding_names_self]
        exact List.mem_append_right _ (List.mem_singleton_self n)
      have hrest := onSeq_bound n t rest _
        (fun i hi => hres i (List.mem_cons_of_mem _ hi)) hmem1
      simp only [onSeq, hOn, hrest, List.append_nil]
      exact countNamedAttachOn_attachOps s0 t n s0.nextCb hneed
  · intro k
    exact bindedInv_onSeq s0 (infos.take k) hinv

/-- Witness for C1: two `on` calls for `click` on the container with
differing ids produce exactly one native attach on the container node, and
the registry invariant holds after both steps. -/
theorem c1_native_attach_unique_witness :
    countNamedAttachOn (primaryNode .container) "click"
      (onSeq (binderInit true [])
        [⟨"a", "click", none, some .container, 0⟩,
         ⟨"b", "click", none, some .container, 1⟩]).2 = 1 ∧
    ∀ k, bindedInv (onSeq (binderInit true [])
      ([⟨"a", "click", none, some .container, 0⟩,
        ⟨"b", "click", none, some .container, 1⟩].take k)).1 :=
  c1_native_attach_unique (binderInit true [])
    [⟨"a", "click", none, some .container, 0⟩,
     ⟨"b", "click", none, some .container, 1⟩]
    "click" .container (by decide) (by decide) (by decide) (by decide)
    (by decide) (by decide)

/-- The state after `on('click', id 'a')` and `on('dblclick', id 'b')`,
both on the container target, from a fresh binder. -/
def c2StateBound : BinderState :=
  (Binder.on (Binder.on (binderInit true [])
      ⟨"a", "click", none, some .container, 0⟩).1
    ⟨"b", "dblclick", none, some .container, 1⟩).1

/-- The `off('click', id 'a')` call on that state. -/
def c2OffRun : BinderState × List NativeOp :=
  Binder.off c2StateBound ⟨"a", "click", none, some .container, 0⟩

/-- Counterexample to C2 as stated: `click` is natively bound on the
container and the `off` call removes the last logical `click` subscriber
(no subscription for `click` remains on the container Bus afterwards), yet
the `off` call performs NO native detach — because `hasEvents()` is
target-wide and the `dblclick` subscriber keeps it true. -/
theorem c2_counterexample :
    "click" ∈ c2StateBound.bindedEventNames .container ∧
    (c2OffRun.1.busSubs .container).all (fun b => decide (b.name ≠ "click")) = true ∧
    c2OffRun.2 = [] ∧
    countNamedDetachOn (primaryNode .container) "click" c2OffRun.2 = 0 := by
  refine ⟨?_, ?_, ?_, ?_⟩ <;> decide

/-- C2 amended: after an `off` call, the native listener for
`(target, name)` is detached exactly when the target's Bus retains no
subscriber for ANY name after the removal (not merely none for this name):
if any subscriber remains on that Bus, no detach occurs; if the Bus is
emptied and the name was natively bound (and needs handling), exactly one
native detach occurs on the target's own source. -/
theorem c2_amended_detach_on_empty_bus (s : BinderState) (info : RawEventInfoM)
    (hinv : bindedInv s) :
    (busHasEvents ((busOffState s (resolvedOf info).target
        (busSubOf info)).busSubs (resolvedOf info).target) = true →
      (Binder.off s info).2 = []) ∧
    (busHasEvents ((busOffState s (resolvedOf info).target
        (busSubOf info)).busSubs (resolvedOf info).target) = false →
      isEventNeedToBeHandled (resolvedOf info).target (resolvedOf info).name = true →
      (resolvedOf info).name ∈ s.bindedEventNames (resolvedOf info).target →
      countNamedDetachOn (primaryNode (resolvedOf info).target)
        (resolvedOf info).name (Binder.off s info).2 = 1) := by
  have hoff : Binder.off s info =
      removeEventListenerOnTargetWhenIsUseless
        (busOffState s (resolvedOf info).target (busSubOf info))
        (resolvedOf info).name (resolvedOf info).target := rfl
  set s1 := busOffState s (resolvedOf info).target (busSubOf info) with hs1
  set w := resolvedOf info with hw
  constructor
  · intro hbus
    rw [hoff]
    unfold removeEventListenerOnTargetWhenIsUseless
    split
    · rfl
    · split
      · rfl
      · rfl
  · intro hbus hneed hmem
    have hmem1 : w.name ∈ s1.bindedEventNames w.target := hmem
    have hq : ∃ q ∈ s1.bindedEventInfo w.target, q.1 = w.name := by
      have h1 := (hinv w.target).1
      rw [h1] at hmem
      obtain ⟨q, hqmem, hq1⟩ := List.mem_map.mp hmem
      exact ⟨q, hqmem, hq1⟩
    obtain ⟨q, hqmem, hq1⟩ := hq
    have hfindSome : ((s1.bindedEventInfo w.target).find?
        (fun p => p.1 == w.name)).isSome := by
      rw [List.find?_isSome]
      exact ⟨q, hqmem, by simp [hq1]⟩
    obtain ⟨q2, hq2⟩ := Option.isSome_iff_exists.mp hfindSome
    rw [hoff]
    unfold removeEventListenerOnTargetWhenIsUseless
    rw [if_neg (by simp [hneed]), if_neg (not_not_intro hmem1),
      if_neg (by simp [hbus]), hq2]
    exact countNamedDetachOn_detachOps s1 w.target w.name q2.2

/-- The state after a single `on('click', id 'a')` on the container. -/
def c2WState : BinderState :=
  (Binder.on (binderInit true []) ⟨"a", "click", none, some .container, 0⟩).1

/-- Witness for the amended C2: removing the only subscriber of the
container Bus detaches the native `click` listener exactly once. -/
theorem c2_amended_detach_on_empty_bus_witness :
    bindedInv c2WState ∧
    countNamedDetachOn
      (primaryNode (resolvedOf ⟨"a", "click", none, some .container, 0⟩).target)
      (resolvedOf ⟨"a", "click", none, some .container, 0⟩).name
      (Binder.off c2WState ⟨"a", "click", none, some .container, 0⟩).2 = 1 :=
  ⟨by decide,
    (c2_amended_detach_on_empty_bus c2WState
        ⟨"a", "click", none, some .container, 0⟩ (by decide)).2
      (by decide) (by decide) (by decide)⟩

lemma attachNamesOn_append (node : PhysNode) (a b : List NativeOp) :
    attachNamesOn node (a ++ b) = attachNamesOn node a ++ attachNamesOn node b :=
  List.filterMap_append a b _

/-- The binder state with `play` (id `i1`) and then `pause` (id `i2`)
pending on the kernel target, kernel now present. -/
def c3Pending : BinderState :=
  addPendingEvent (addPendingEvent (binderInit true []) .kernel "play" "i1")
    .kernel "pause" "i2"

/-- Counterexample to C3 as stated: the pending list holds `play` then
`pause` in enqueue order, but the flush attaches `pause` first — the
replay order is the REVERSE of the enqueue order, not FIFO. -/
theorem c3_counterexample :
    (c3Pending.pendingEventsInfo .kernel).map Prod.fst = ["play", "pause"] ∧
    attachNamesOn (primaryNode .kernel) (applyPendingEvents c3Pending .kernel).2 =
      ["pause", "play"] ∧
    attachNamesOn (primaryNode .kernel) (applyPendingEvents c3Pending .kernel).2 ≠
      (c3Pending.pendingEventsInfo .kernel).map Prod.fst := by
  refine ⟨?_, ?_, ?_⟩ <;> decide

lemma applyPendingLoop_spec (target : BinderTarget) :
    ∀ (l : List (String × String)) (s : BinderState),
      (∀ p ∈ l, isEventNeedToBeHandled target p.1 = true) →
      (l.map Prod.fst).Nodup →
      (∀ p ∈ l, p.1 ∉ s.bindedEventNames target) →
      (target = .kernel → s.kernelPresent = true) →
      attachNamesOn (primaryNode target) (applyPendingLoop target s l).2 =
        l.map Prod.fst ∧
      (applyPendingLoop target s l).1.pendingEventsInfo target =
        s.pendingEventsInfo target
  | [], _, _, _, _, _ => ⟨rfl, rfl⟩
  | (name, id) :: rest, s, hneed, hnodup, hnb, hk => by
      have hkk : ¬(target = .kernel ∧ s.kernelPresent = false) := by
        rintro ⟨h1, h2⟩
        rw [hk h1] at h2
        exact Bool.noConfusion h2
      have hneed0 := hneed (name, id) (List.mem_cons_self _ _)
      have ha := addEventListenerOnTarget_attach s name target id hneed0
        (hnb (name, id) (List.mem_cons_self _ _)) hkk
      have hnodup' : (name :: rest.map Prod.fst).Nodup := by simpa using hnodup
      have hnb' : ∀ p ∈ rest,
          p.1 ∉ (pushBinding s target name s.nextCb).bindedEventNames target := by
        intro p hp
        rw [pushBinding_names_self]
        simp only [List.mem_append, List.mem_singleton]
        rintro (hmem | heq)
        · exact hnb p (List.mem_cons_of_mem _ hp) hmem
        · have : name ∈ rest.map Prod.fst :=
            heq ▸ List.mem_map_of_mem Prod.fst hp
          exact (List.nodup_cons.mp hnodup').1 this
      have ih := applyPendingLoop_spec target rest (pushBinding s target name s.nextCb)
        (fun p hp => hneed p (List.mem_cons_of_mem _ hp))
        (List.nodup_cons.mp hnodup').2 hnb' hk
      refine ⟨?_, ?_⟩
      · simp only [applyPendingLoop, ha, attachNamesOn_append]
        rw [attachNamesOn_attachOps s target name s.nextCb hneed0, ih.1]
        simp
      · simp only [applyPendingLoop, ha]
        exact ih.2

/-- C3 amended: `applyPendingEvents` atomically drains the pending list
(the drained state's list is empty, and stays empty through a flush whose
replays all attach) and replays the drained registrations through the
attachment path in REVERSE enqueue order (LIFO), not FIFO. -/
theorem c3_amended_lifo_flush (s : BinderState) (target : BinderTarget)
    (hneed : ∀ p ∈ s.pendingEventsInfo target, isEventNeedToBeHandled target p.1 = true)
    (hnodup : ((s.pendingEventsInfo target).map Prod.fst).Nodup)
    (hnb : ∀ p ∈ s.pendingEventsInfo target, p.1 ∉ s.bindedEventNames target)
    (hk : target = .kernel → s.kernelPresent = true) :
    attachNamesOn (primaryNode target) (applyPendingEvents s target).2 =
      ((s.pendingEventsInfo target).map Prod.fst).reverse ∧
    (applyPendingEvents s target).1.pendingEventsInfo target = [] := by
  have hres := applyPendingLoop_spec target (s.pendingEventsInfo target).reverse
    { s with pendingEventsInfo := fun t => if t = target then [] else s.pendingEventsInfo t }
    (fun p hp => hneed p (List.mem_reverse.mp hp))
    (by rw [List.map_reverse]; exact List.nodup_reverse.mpr hnodup)
    (fun p hp => hnb p (List.mem_reverse.mp hp))
    hk
  refine ⟨?_, ?_⟩
  · rw [show (applyPendingEvents s target).2 = (applyPendingLoop target
      { s with pendingEventsInfo := fun t => if t = target then [] else s.pendingEventsInfo t }
      (s.pendingEventsInfo target).reverse).2 from rfl]
    rw [hres.1, List.map_reverse]
  · rw [show (applyPendingEvents s target).1 = (applyPendingLoop target
      { s with pendingEventsInfo := fun t => if t = target then [] else s.pendingEventsInfo t }
      (s.pendingEventsInfo target).reverse).1 from rfl]
    rw [hres.2]
    simp

/-- Witness for the amended C3 at the two-entry pending state. -/
theorem c3_amended_lifo_flush_witness :
    attachNamesOn (primaryNode .kernel) (applyPendingEvents c3Pending .kernel).2 =
      ((c3Pending.pendingEventsInfo .kernel).map Prod.fst).reverse ∧
    (applyPendingEvents c3Pending .kernel).1.pendingEventsInfo .kernel = [] :=
  c3_amended_lifo_flush c3Pending .kernel (by decide) (by decide) (by decide)
    (by decide)

/-- The state after `on('click', id 'a')` on the container target. -/
def c4State : BinderState :=
  (Binder.on (binderInit true []) ⟨"a", "click", none, some .container, 0⟩).1

/-- C4 evaluated at a binder holding one container binding: `destroy()`
does detach the recorded `(click, cb)` pair from the container node, but
the container's NativeBinding is NOT cleared — both container lists still
hold the entry after `destroy()`, while the kernel lists are cleared. The
destroy loop writes `bindedEventInfo.kernel` / `bindedEventNames.kernel`
on every iteration instead of the iterated target's entry
(binder.ts lines 213-214). -/
theorem c4_destroy_leaves_nonkernel_binding :
    (Binder.destroy c4State).2 = [NativeOp.detach .containerDom "click" 0] ∧
    (Binder.destroy c4State).1.bindedEventInfo .container = [("click", 0)] ∧
    (Binder.destroy c4State).1.bindedEventNames .container = ["click"] ∧
    (Binder.destroy c4State).1.bindedEventInfo .kernel = [] ∧
    (Binder.destroy c4State).1.bindedEventNames .kernel = [] := by
  refine ⟨?_, ?_, ?_, ?_, ?_⟩ <;> decide

/-- The first `listenOnMouseMoveEvent` call on a fresh binder. -/
def c5First : BinderState × List NativeOp :=
  listenOnMouseMoveEvent (binderInit true []) .videoElement

/-- The second `listenOnMouseMoveEvent` call, when every must-listen name
is already recorded as bound for `video-dom`. -/
def c5Second : BinderState × List NativeOp :=
  listenOnMouseMoveEvent c5First.1 .videoElement

/-- Counterexample to C5 as stated: after the first install, `mouseenter`
is already recorded as bound for `video-dom`, yet the second call still
performs a native attach for `mouseenter` (and for `mouseleave`): the
already-bound check guards only the bookkeeping, not the `addEvent` call,
so installing is NOT idempotent at the native layer. -/
theorem c5_counterexample :
    "mouseenter" ∈ c5First.1.bindedEventNames .videoDom ∧
    countNamedAttachOn .videoElement "mouseenter" c5Second.2 = 1 ∧
    countNamedAttachOn .videoElement "mouseenter" (c5First.2 ++ c5Second.2) = 2 := by
  refine ⟨?_, ?_, ?_⟩ <;> decide

lemma attachNamesOn_cons_attach (node : PhysNode) (name : String) (cb : Nat)
    (ops : List NativeOp) :
    attachNamesOn node (NativeOp.attach node name cb :: ops) =
      name :: attachNamesOn node ops := by
  simp [attachNamesOn]

lemma listenOnMouseMoveLoop_spec (node : PhysNode) :
    ∀ (l : List String) (s : BinderState), bindedInv s →
      attachNamesOn node (listenOnMouseMoveLoop node s l).2 = l ∧
      bindedInv (listenOnMouseMoveLoop node s l).1
  | [], _, hinv => ⟨rfl, hinv⟩
  | name :: rest, s, hinv => by
      have hinv1 : bindedInv (if name ∈ s.bindedEventNames .videoDom then
          { s with nextCb := s.nextCb + 1 }
        else pushBinding s .videoDom name s.nextCb) := by
        split
        · exact hinv
        · next hnb => exact bindedInv_pushBinding s .videoDom name s.nextCb hinv hnb
      have ih := listenOnMouseMoveLoop_spec node rest _ hinv1
      refine ⟨?_, ?_⟩
      · simp only [listenOnMouseMoveLoop]
        rw [attachNamesOn_cons_attach, ih.1]
      · simp only [listenOnMouseMoveLoop]
        exact ih.2

/-- C5 amended: `listenOnMouseMoveEvent` always attaches one fresh native
listener per must-listen name, whether or not the name is already recorded
as bound for `video-dom`; only the recording into
`bindedEventNames`/`bindedEventInfo` is guarded by the already-bound
check, which keeps the registry lists duplicate-free. -/
theorem c5_amended_always_attaches (s : BinderState) (node : PhysNode)
    (hinv : bindedInv s) :
    attachNamesOn node (listenOnMouseMoveEvent s node).2 =
      mustListenVideoDomEvents ∧
    bindedInv (listenOnMouseMoveEvent s node).1 :=
  listenOnMouseMoveLoop_spec node mustListenVideoDomEvents s hinv

/-- Witness for the amended C5: the second install attaches both
must-listen names again and keeps the registry invariant. -/
theorem c5_amended_always_attaches_witness :
    attachNamesOn .videoElement c5Second.2 = mustListenVideoDomEvents ∧
    bindedInv c5Second.1 :=
  c5_amended_always_attaches c5First.1 .videoElement (by decide)
